import Mathlib

/-!
# VaultStream — media pipeline and secure delivery subsystem

Shallow embedding, in Lean 4, of the parts of the VaultStream backend that the
verified properties below are about:

* `SecurityService` (signed-URL minting and validation, passphrase hashing) —
  `backend/src/services/SecurityService.ts`;
* the signed-URL middleware (`validateSignedUrl` / `extractResourceFromPath`) —
  `backend/src/middleware/validateSignedUrl.ts`;
* the two access-gate handlers named `requestVideoAccess`
  (`streamController.ts` and `videoController.ts`);
* the transcoding pipeline (`VideoProcessingService.ts`): quality-ladder
  derivation and the `processVideo` state machine;
* playlist rewriting (`rewritePlaylistUrls` / `rewriteSegmentUrls` in
  `streamController.ts`);
* video deletion (`deleteVideoFiles` + `videoController.deleteVideo`);
* the upload middleware and the passphrase step of `uploadVideo`.

Modelling conventions: JavaScript numbers that hold Unix timestamps or TTLs
become `Int`; machine I/O, the database and the external encoder become
explicit environments of step outcomes; `throw` of an `ApiError` becomes
`Except ApiErr`; HMAC-SHA256 is an abstract parameter `mac` (the proofs use
only that it is a function of the payload, as `createSignature` is); the
base64url-JSON token encoding is kept as the structure it encodes
(`TokenData`), with an abstract injection `enc` where a token is spliced into
a URL string.
-/

/-- Mirror of `utils/ApiError.ts`: message, HTTP status code, optional
machine-readable code. -/
structure ApiErr where
  message : String
  statusCode : Nat
  code : Option String
deriving DecidableEq, Repr

namespace ApiErr

def badRequest (message : String) (code : Option String) : ApiErr :=
  ⟨message, 400, code⟩

def unauthorized (message : String) (code : Option String) : ApiErr :=
  ⟨message, 401, code⟩

def forbidden (message : String) (code : Option String) : ApiErr :=
  ⟨message, 403, code⟩

def notFound (message : String) (code : Option String) : ApiErr :=
  ⟨message, 404, code⟩

end ApiErr

/-- `SignedUrlPayload` from `SecurityService.ts`.  `userId` is optional
(`userId?: string`); `expiresAt` is a Unix timestamp in seconds. -/
structure SignedUrlPayload where
  videoId : String
  userId : Option String
  resource : String
  expiresAt : Int
deriving DecidableEq, Repr

/-- The structure that `encodeToken` serializes (`{ p: payload, s: signature }`)
and `decodeToken` recovers.  Tokens are modelled post-decoding; the base64url
JSON wrapper is injective, and no claim here concerns malformed strings. -/
structure TokenData where
  p : SignedUrlPayload
  s : String
deriving DecidableEq, Repr

/-- The slice of `config` (from `config/env.ts`) that the embedded code reads:
`config.security.signedUrlExpiry` (env default 3600). -/
structure Config where
  signedUrlExpiry : Int
deriving DecidableEq, Repr

/-- `ApiError.forbidden('Invalid signature', 'INVALID_SIGNATURE')`. -/
def invalidSignatureErr : ApiErr :=
  ApiErr.forbidden "Invalid signature" (some "INVALID_SIGNATURE")

/-- `ApiError.forbidden('Token expired', 'TOKEN_EXPIRED')`. -/
def tokenExpiredErr : ApiErr :=
  ApiErr.forbidden "Token expired" (some "TOKEN_EXPIRED")

/-- `ApiError.forbidden('Invalid token', 'INVALID_TOKEN')` — produced by the
catch-all in `validateSignedUrl` (for example when `crypto.timingSafeEqual`
throws on buffers of different length). -/
def invalidTokenErr : ApiErr :=
  ApiErr.forbidden "Invalid token" (some "INVALID_TOKEN")

/-- The payload that `SecurityService.generateSignedUrl` builds before
signing it.

* `expiresIn || config.security.signedUrlExpiry`: a supplied `0` is falsy in
  JavaScript and falls back to the configured default, any other supplied
  value (negative included) is used as-is.
* `if (userId) payload.userId = userId`: a falsy user id (absent or the empty
  string) is omitted from the payload. -/
def mintPayload (cfg : Config) (videoId resource : String)
    (userId : Option String) (expiresIn : Option Int) (now : Int) :
    SignedUrlPayload :=
  let expiry : Int :=
    match expiresIn with
    | some e => if e = 0 then cfg.signedUrlExpiry else e
    | none => cfg.signedUrlExpiry
  let payloadUserId : Option String :=
    match userId with
    | some u => if u = "" then none else some u
    | none => none
  { videoId := videoId, userId := payloadUserId, resource := resource,
    expiresAt := now + expiry }

/-- `SecurityService.generateSignedUrl`, up to the final `encodeToken`:
build the payload, sign it with `createSignature` (the abstract `mac`), pair
the two. -/
def generateSignedUrl (mac : SignedUrlPayload → String) (cfg : Config)
    (videoId resource : String) (userId : Option String)
    (expiresIn : Option Int) (now : Int) : TokenData :=
  let payload := mintPayload cfg videoId resource userId expiresIn now
  { p := payload, s := mac payload }

/-- `SecurityService.validateSignedUrl` on a decoded token.

* `crypto.timingSafeEqual` throws when the two buffers differ in length; the
  surrounding `catch` converts that into `INVALID_TOKEN`.
* Equal-length but different signatures → `INVALID_SIGNATURE`.
* `payload.expiresAt < now` → `TOKEN_EXPIRED`; otherwise the payload is
  returned. -/
def validateSignedUrl (mac : SignedUrlPayload → String) (t : TokenData)
    (now : Int) : Except ApiErr SignedUrlPayload :=
  let expected := mac t.p
  if t.s.length ≠ expected.length then
    .error invalidTokenErr
  else if t.s ≠ expected then
    .error invalidSignatureErr
  else if t.p.expiresAt < now then
    .error tokenExpiredErr
  else
    .ok t.p

/-- Validating a token whose signature was produced by the same `mac` reduces
to the expiry check. -/
theorem validateSignedUrl_signed (mac : SignedUrlPayload → String)
    (p : SignedUrlPayload) (now : Int) :
    validateSignedUrl mac ⟨p, mac p⟩ now =
      if p.expiresAt < now then .error tokenExpiredErr else .ok p := by
  simp [validateSignedUrl]

/-- The expiry stamped by `mintPayload` when a non-zero TTL is supplied. -/
theorem mintPayload_expiresAt (cfg : Config) (videoId resource : String)
    (userId : Option String) (ttl now : Int) (httl : ttl ≠ 0) :
    (mintPayload cfg videoId resource userId (some ttl) now).expiresAt =
      now + ttl := by
  simp [mintPayload, httl]

/-- C1 counterexample — the round-trip does not return the input `userId`
when that input is the empty string: `if (userId)` in `generateSignedUrl` is
false for `''`, so the minted payload omits the field and validation returns
a payload with no `userId`, which is not equal to the supplied `some ""`. -/
theorem token_roundtrip_empty_userId :
    validateSignedUrl (fun _ => "sig")
        (generateSignedUrl (fun _ => "sig") ⟨3600⟩ "vid1" "master.m3u8"
          (some "") (some 60) 1000)
        1000 =
      .ok { videoId := "vid1", userId := none, resource := "master.m3u8",
            expiresAt := 1060 }
    ∧ (none : Option String) ≠ some "" := by
  exact ⟨rfl, by simp⟩

/-- C1 (amended) — Token round-trip: for every `videoId`, `resource`,
optional `userId` and every `ttl > 0`, validating the token minted by
`generateSignedUrl videoId resource userId ttl` at the same instant succeeds,
and the payload carries the input `videoId` and `resource`, the input
`userId` except that an empty-string `userId` comes back absent, and an
`expiresAt` in `(now, now + ttl]`. -/
theorem token_roundtrip (mac : SignedUrlPayload → String) (cfg : Config)
    (videoId resource : String) (userId : Option String) (ttl now : Int)
    (httl : 0 < ttl) :
    ∃ p : SignedUrlPayload,
      validateSignedUrl mac
          (generateSignedUrl mac cfg videoId resource userId (some ttl) now)
          now = .ok p
        ∧ p.videoId = videoId
        ∧ p.resource = resource
        ∧ (userId ≠ some "" → p.userId = userId)
        ∧ (userId = some "" → p.userId = none)
        ∧ now < p.expiresAt ∧ p.expiresAt ≤ now + ttl := by
  have httl0 : ttl ≠ 0 := by omega
  have hexp := mintPayload_expiresAt cfg videoId resource userId ttl now httl0
  refine ⟨mintPayload cfg videoId resource userId (some ttl) now, ?_, rfl, rfl,
    ?_, ?_, ?_, ?_⟩
  · rw [show generateSignedUrl mac cfg videoId resource userId (some ttl) now =
        ⟨mintPayload cfg videoId resource userId (some ttl) now,
          mac (mintPayload cfg videoId resource userId (some ttl) now)⟩ from
        rfl,
      validateSignedUrl_signed, if_neg (by omega)]
  · intro hne
    cases userId with
    | none => simp [mintPayload]
    | some u =>
        have hu : u ≠ "" := fun h => hne (by rw [h])
        simp [mintPayload, hu]
  · intro heq
    subst heq
    simp [mintPayload]
  · omega
  · omega

/-- C1 witness at concrete inputs. -/
theorem token_roundtrip_witness :
    (0 : Int) < 60
    ∧ ∃ p : SignedUrlPayload,
        validateSignedUrl (fun _ => "sig")
            (generateSignedUrl (fun _ => "sig") ⟨3600⟩ "vid1" "master.m3u8"
              (some "u1") (some 60) 1000)
            1000 = .ok p
          ∧ p.videoId = "vid1"
          ∧ p.resource = "master.m3u8"
          ∧ ((some "u1" : Option String) ≠ some "" → p.userId = some "u1")
          ∧ ((some "u1" : Option String) = some "" → p.userId = none)
          ∧ 1000 < p.expiresAt ∧ p.expiresAt ≤ 1000 + 60 :=
  ⟨by decide,
   token_roundtrip (fun _ => "sig") ⟨3600⟩ "vid1" "master.m3u8" (some "u1")
     60 1000 (by decide)⟩

/-- C2 — Expiry: a token whose MAC is valid verifies exactly when
`now ≤ expiresAt`, yields `TOKEN_EXPIRED` once the clock has passed
`expiresAt`, and a token minted with a negative TTL is rejected as expired at
every instant at or after minting. -/
theorem token_expiry :
    (∀ (mac : SignedUrlPayload → String) (t : TokenData) (now : Int),
        t.s = mac t.p →
          ((∃ p, validateSignedUrl mac t now = .ok p) ↔ now ≤ t.p.expiresAt)
          ∧ (t.p.expiresAt < now →
              validateSignedUrl mac t now = .error tokenExpiredErr))
    ∧ (∀ (mac : SignedUrlPayload → String) (cfg : Config)
        (videoId resource : String) (userId : Option String)
        (ttl mintNow vNow : Int), ttl < 0 → mintNow ≤ vNow →
          validateSignedUrl mac
              (generateSignedUrl mac cfg videoId resource userId (some ttl)
                mintNow)
              vNow = .error tokenExpiredErr) := by
  constructor
  · intro mac t now hs
    obtain ⟨p, s⟩ := t
    dsimp only at hs ⊢
    subst hs
    rw [validateSignedUrl_signed]
    by_cases hlt : p.expiresAt < now
    · rw [if_pos hlt]
      constructor
      · constructor
        · rintro ⟨q, hq⟩
          simp at hq
        · intro hle
          omega
      · intro _
        rfl
    · rw [if_neg hlt]
      constructor
      · exact ⟨fun _ => by omega, fun _ => ⟨p, rfl⟩⟩
      · intro h
        exact absurd h hlt
  · intro mac cfg videoId resource userId ttl mintNow vNow httl hle
    have httl0 : ttl ≠ 0 := by omega
    have hexp := mintPayload_expiresAt cfg videoId resource userId ttl mintNow
      httl0
    rw [show generateSignedUrl mac cfg videoId resource userId (some ttl)
          mintNow =
        ⟨mintPayload cfg videoId resource userId (some ttl) mintNow,
          mac (mintPayload cfg videoId resource userId (some ttl) mintNow)⟩
        from rfl,
      validateSignedUrl_signed, if_pos (by omega)]

/-- C2 witness at concrete inputs: a valid-MAC token one second past its
expiry, and a token minted with TTL `-5`. -/
theorem token_expiry_witness :
    validateSignedUrl (fun _ => "m")
        ⟨{ videoId := "v", userId := none, resource := "r", expiresAt := 10 },
          "m"⟩ 11 = .error tokenExpiredErr
    ∧ validateSignedUrl (fun _ => "m")
        (generateSignedUrl (fun _ => "m") ⟨3600⟩ "v" "r" none (some (-5)) 100)
        100 = .error tokenExpiredErr :=
  ⟨(token_expiry.1 (fun _ => "m")
      ⟨{ videoId := "v", userId := none, resource := "r", expiresAt := 10 },
        "m"⟩ 11 rfl).2 (by decide),
   token_expiry.2 (fun _ => "m") ⟨3600⟩ "v" "r" none (-5) 100 100 (by decide)
     (by decide)⟩

/-- JavaScript `str.split('/')` on the underlying character list: splitting
on every `/`, with adjacent separators and string ends producing empty
segments (so the result is never the empty list). -/
def splitOnSlash : List Char → List (List Char)
  | [] => [[]]
  | c :: cs =>
    let rest := splitOnSlash cs
    if c = '/' then [] :: rest
    else
      match rest with
      | [] => [[c]]
      | seg :: segs => (c :: seg) :: segs

/-- `extractResourceFromPath` from
`backend/src/middleware/validateSignedUrl.ts`: split the request path on
`/` and take the final segment (`parts[parts.length - 1] || ''`; for
strings, an empty final segment and the `''` fallback coincide). -/
def extractResourceFromPath (path : String) : String :=
  ((splitOnSlash path.data).map List.asString).getLastD ""

/-- `ApiError.forbidden('Invalid resource', 'RESOURCE_MISMATCH')`. -/
def resourceMismatchErr : ApiErr :=
  ApiErr.forbidden "Invalid resource" (some "RESOURCE_MISMATCH")

/-- `ApiError.unauthorized('Missing access token', 'MISSING_TOKEN')`. -/
def missingTokenErr : ApiErr :=
  ApiErr.unauthorized "Missing access token" (some "MISSING_TOKEN")

/-- The `validateSignedUrl` middleware
(`backend/src/middleware/validateSignedUrl.ts`): require a `token` query
parameter, validate it with `SecurityService.validateSignedUrl`, then reject
with `RESOURCE_MISMATCH` unless the payload's `resource` equals the final
path segment of the request path. -/
def validateSignedUrlMiddleware (mac : SignedUrlPayload → String)
    (token : Option TokenData) (path : String) (now : Int) :
    Except ApiErr SignedUrlPayload :=
  match token with
  | none => .error missingTokenErr
  | some t =>
    match validateSignedUrl mac t now with
    | .error e => .error e
    | .ok payload =>
      if payload.resource ≠ extractResourceFromPath path then
        .error resourceMismatchErr
      else
        .ok payload

/-- C3 — Resource binding: a fresh token minted for `(videoId, r1)` is
rejected with `RESOURCE_MISMATCH` on any request whose final path segment
differs from `r1`; and for every token with a valid MAC that has not
expired, the middleware succeeds exactly when the payload's resource equals
the final path segment of the request path. -/
theorem resource_binding :
    (∀ (mac : SignedUrlPayload → String) (cfg : Config)
        (videoId r1 : String) (userId : Option String) (path : String)
        (now : Int), 0 < cfg.signedUrlExpiry →
          extractResourceFromPath path ≠ r1 →
          validateSignedUrlMiddleware mac
              (some (generateSignedUrl mac cfg videoId r1 userId none now))
              path now = .error resourceMismatchErr)
    ∧ (∀ (mac : SignedUrlPayload → String) (t : TokenData) (path : String)
        (now : Int), t.s = mac t.p → now ≤ t.p.expiresAt →
          (validateSignedUrlMiddleware mac (some t) path now = .ok t.p ↔
            t.p.resource = extractResourceFromPath path)) := by
  constructor
  · intro mac cfg videoId r1 userId path now hcfg hne
    have hexp : (mintPayload cfg videoId r1 userId none now).expiresAt =
        now + cfg.signedUrlExpiry := rfl
    have hres : (mintPayload cfg videoId r1 userId none now).resource = r1 :=
      rfl
    rw [show generateSignedUrl mac cfg videoId r1 userId none now =
        ⟨mintPayload cfg videoId r1 userId none now,
          mac (mintPayload cfg videoId r1 userId none now)⟩ from rfl]
    simp only [validateSignedUrlMiddleware, validateSignedUrl_signed,
      if_neg (show ¬(mintPayload cfg videoId r1 userId none now).expiresAt <
        now by omega)]
    rw [if_pos (by rw [hres]; exact fun h => hne h.symm)]
  · intro mac t path now hs hle
    obtain ⟨p, s⟩ := t
    dsimp only at hs hle ⊢
    subst hs
    simp only [validateSignedUrlMiddleware, validateSignedUrl_signed,
      if_neg (show ¬p.expiresAt < now by omega)]
    by_cases hr : p.resource = extractResourceFromPath path
    · rw [if_neg (not_not_intro hr)]
      simp [hr]
    · rw [if_pos hr]
      simp [hr]

/-- C3 witness at concrete inputs: a token for `master.m3u8` presented on a
path ending in `720p.m3u8`, and the same token presented on a matching
path. -/
theorem resource_binding_witness :
    validateSignedUrlMiddleware (fun _ => "m")
        (some (generateSignedUrl (fun _ => "m") ⟨3600⟩ "vid1" "master.m3u8"
          none none 50))
        "/api/stream/vid1/720p.m3u8" 50 = .error resourceMismatchErr
    ∧ (validateSignedUrlMiddleware (fun _ => "m")
          (some
            ⟨{ videoId := "vid1", userId := none, resource := "master.m3u8",
               expiresAt := 99 }, "m"⟩)
          "/api/stream/vid1/master.m3u8" 50 =
        .ok { videoId := "vid1", userId := none, resource := "master.m3u8",
              expiresAt := 99 } ↔
        "master.m3u8" = extractResourceFromPath "/api/stream/vid1/master.m3u8") :=
  ⟨resource_binding.1 (fun _ => "m") ⟨3600⟩ "vid1" "master.m3u8" none
     "/api/stream/vid1/720p.m3u8" 50 (by decide) (by decide),
   resource_binding.2 (fun _ => "m")
     ⟨{ videoId := "vid1", userId := none, resource := "master.m3u8",
        expiresAt := 99 }, "m"⟩
     "/api/stream/vid1/master.m3u8" 50 rfl (by decide)⟩

/-- A quality-ladder entry as built by `determineQualityLevels`
(`VideoProcessingService.ts`). -/
structure Quality where
  name : String
  height : Nat
  bitrate : String
deriving DecidableEq, Repr

/-- An entry of `VideoProcessingService.AVAILABLE_RENDITIONS`. -/
structure Rendition where
  height : Nat
  bitrate : String
deriving DecidableEq, Repr

/-- `VideoProcessingService.AVAILABLE_RENDITIONS`, highest first. -/
def AVAILABLE_RENDITIONS : List Rendition :=
  [⟨1080, "5000k"⟩, ⟨720, "2800k"⟩, ⟨480, "1400k"⟩, ⟨360, "800k"⟩]

/-- `VideoProcessingService.determineQualityLevels`: keep the renditions at
or below the source height; when none qualify, a single rendition at the
source height with the minimum bitrate.  `width` is only logged. -/
def determineQualityLevels (width height : Nat) : List Quality :=
  let validRenditions := AVAILABLE_RENDITIONS.filter fun r => r.height ≤ height
  if validRenditions.isEmpty then
    [{ name := toString height ++ "p", height := height, bitrate := "800k" }]
  else
    validRenditions.map fun r =>
      { name := toString r.height ++ "p", height := r.height,
        bitrate := r.bitrate }

/-- C5 — Ladder derivation / no upscaling: for a source of height `H`, the
derived ladder is exactly the entries of
`[(1080, 5000k), (720, 2800k), (480, 1400k), (360, 800k)]` whose height is
at most `H`, in that order, and for `H < 360` it is the single entry
`(H, 800k)`. -/
theorem ladder_no_upscaling (width height : Nat) :
    (determineQualityLevels width height).map (fun q => (q.height, q.bitrate))
      = if height < 360 then [(height, "800k")]
        else
          ([(1080, "5000k"), (720, "2800k"), (480, "1400k"), (360, "800k")] :
              List (Nat × String)).filter fun r => r.1 ≤ height := by
  rcases Nat.lt_or_ge height 360 with h360 | h360
  · have n1 : ¬(1080 ≤ height) := by omega
    have n2 : ¬(720 ≤ height) := by omega
    have n3 : ¬(480 ≤ height) := by omega
    have n4 : ¬(360 ≤ height) := by omega
    simp [determineQualityLevels, AVAILABLE_RENDITIONS, h360, n1, n2, n3, n4]
  · have hnl : ¬(height < 360) := by omega
    rcases Nat.lt_or_ge height 480 with h480 | h480
    · have n1 : ¬(1080 ≤ height) := by omega
      have n2 : ¬(720 ≤ height) := by omega
      have n3 : ¬(480 ≤ height) := by omega
      simp [determineQualityLevels, AVAILABLE_RENDITIONS, hnl, n1, n2, n3,
        h360]
    · rcases Nat.lt_or_ge height 720 with h720 | h720
      · have n1 : ¬(1080 ≤ height) := by omega
        have n2 : ¬(720 ≤ height) := by omega
        simp [determineQualityLevels, AVAILABLE_RENDITIONS, hnl, n1, n2, h480,
          h360]
      · rcases Nat.lt_or_ge height 1080 with h1080 | h1080
        · have n1 : ¬(1080 ≤ height) := by omega
          simp [determineQualityLevels, AVAILABLE_RENDITIONS, hnl, n1, h720,
            h480, h360]
        · simp [determineQualityLevels, AVAILABLE_RENDITIONS, hnl, h1080,
            h720, h480, h360]

/-- `visibility` values of a Video (`public | unlisted | private`; `priv`
because `private` is reserved in Lean). -/
inductive Visibility
  | pub
  | unlisted
  | priv
deriving DecidableEq, Repr

/-- `status` values of a Video. -/
inductive VideoStatus
  | uploading
  | processing
  | ready
  | failed
deriving DecidableEq, Repr

/-- The fields of the `Video` document (`models/Video.ts`) that the embedded
handlers read or write. -/
structure Video where
  videoId : String
  userId : String
  title : String
  description : String
  visibility : Visibility
  passphraseHash : Option String
  storagePath : String
  hlsPath : String
  masterPlaylistPath : Option String
  thumbnailPath : Option String
  duration : Int
  resolution : Option (Nat × Nat)
  status : VideoStatus
  processingError : Option String
  views : Int
deriving DecidableEq, Repr

/-- The metadata `extractMetadata` resolves with (ffprobe). -/
structure VideoMetadata where
  duration : Int
  width : Nat
  height : Nat
  codec : String
  fps : Int
  bitrate : Int
  format : String
deriving DecidableEq, Repr

/-- Outcomes of the external steps `VideoProcessingService.processVideo`
performs, one field per I/O boundary: the ffprobe call, the `fs.mkdir` in
`generateHLS`, each per-rendition ffmpeg run, the `fs.writeFile` of
`master.m3u8`, and the thumbnail ffmpeg run. -/
structure PipelineEnv where
  probe : Except String VideoMetadata
  mkdirErr : Option String
  renditionOk : Quality → Bool
  masterWriteErr : Option String
  thumbnailOk : Bool

/-- The `catch` block of `processVideo`: persist `status = failed` with
`processingError = error.message`. -/
def markFailed (v : Video) (msg : String) : Video :=
  { v with status := VideoStatus.failed, processingError := some msg }

/-- `VideoProcessingService.generateHLS`: make the output directory, run the
renditions sequentially collecting the ones that succeed (a failed rendition
is logged and skipped), and throw `'All renditions failed to generate'` when
none succeeded. -/
def generateHLS (env : PipelineEnv) (qualities : List Quality) :
    Except String (List Quality) :=
  match env.mkdirErr with
  | some e => .error e
  | none =>
    let succeededQualities := qualities.filter env.renditionOk
    if succeededQualities.isEmpty then
      .error "All renditions failed to generate"
    else
      .ok succeededQualities

/-- `VideoProcessingService.processVideo` as a function from step outcomes to
the finally persisted Video record: set `processing`; probe and persist
metadata; derive the ladder; encode; write the master playlist; best-effort
thumbnail (its ffmpeg promise resolves even on error, so it cannot throw);
set `ready` and `masterPlaylistPath`.  Any error thrown on the way lands in
the `catch` block (`markFailed`).  (The `succeededQualities.length === 0`
re-check inside `processVideo` is unreachable because `generateHLS` already
threw in that case.) -/
def processVideo (env : PipelineEnv) (video : Video) : Video :=
  let v1 := { video with status := VideoStatus.processing }
  match env.probe with
  | .error e => markFailed v1 e
  | .ok md =>
    let v2 := { v1 with duration := md.duration,
                        resolution := some (md.width, md.height) }
    let qualities := determineQualityLevels md.width md.height
    match generateHLS env qualities with
    | .error e => markFailed v2 e
    | .ok _succeeded =>
      match env.masterWriteErr with
      | some e => markFailed v2 e
      | none =>
        let v3 :=
          if env.thumbnailOk then
            { v2 with thumbnailPath := some (video.hlsPath ++ "/thumbnail.jpg") }
          else v2
        { v3 with status := VideoStatus.ready,
                  masterPlaylistPath := some (video.hlsPath ++ "/master.m3u8") }

/-- C6 — Pipeline terminal-state invariant: processing always ends with
status `ready` or `failed`; an error in metadata extraction, in encoding
(the mkdir, or every rendition failing), or in master-manifest writing ends
with `failed` and `processingError` equal to that error's message; and a
thumbnail failure alone still ends with `ready`. -/
theorem pipeline_terminal :
    (∀ (env : PipelineEnv) (video : Video),
        (processVideo env video).status = VideoStatus.ready
        ∨ (processVideo env video).status = VideoStatus.failed)
    ∧ (∀ (env : PipelineEnv) (video : Video) (e : String),
        env.probe = .error e →
          (processVideo env video).status = VideoStatus.failed
          ∧ (processVideo env video).processingError = some e)
    ∧ (∀ (env : PipelineEnv) (video : Video) (md : VideoMetadata)
        (e : String), env.probe = .ok md → env.mkdirErr = some e →
          (processVideo env video).status = VideoStatus.failed
          ∧ (processVideo env video).processingError = some e)
    ∧ (∀ (env : PipelineEnv) (video : Video) (md : VideoMetadata),
        env.probe = .ok md → env.mkdirErr = none →
        (determineQualityLevels md.width md.height).filter env.renditionOk
          = [] →
          (processVideo env video).status = VideoStatus.failed
          ∧ (processVideo env video).processingError =
              some "All renditions failed to generate")
    ∧ (∀ (env : PipelineEnv) (video : Video) (md : VideoMetadata)
        (e : String), env.probe = .ok md → env.mkdirErr = none →
        (determineQualityLevels md.width md.height).filter env.renditionOk
          ≠ [] →
        env.masterWriteErr = some e →
          (processVideo env video).status = VideoStatus.failed
          ∧ (processVideo env video).processingError = some e)
    ∧ (∀ (env : PipelineEnv) (video : Video) (md : VideoMetadata),
        env.probe = .ok md → env.mkdirErr = none →
        (determineQualityLevels md.width md.height).filter env.renditionOk
          ≠ [] →
        env.masterWriteErr = none → env.thumbnailOk = false →
          (processVideo env video).status = VideoStatus.ready
          ∧ (processVideo env video).masterPlaylistPath =
              some (video.hlsPath ++ "/master.m3u8")) := by
  refine ⟨?_, ?_, ?_, ?_, ?_, ?_⟩
  · intro env video
    rcases hp : env.probe with e | md
    · right
      simp [processVideo, hp, markFailed]
    · rcases hmk : env.mkdirErr with _ | e
      · by_cases hempty :
          ((determineQualityLevels md.width md.height).filter
            env.renditionOk).isEmpty
        · right
          simp [processVideo, generateHLS, hp, hmk, hempty, markFailed]
        · rcases hmw : env.masterWriteErr with _ | e
          · left
            rcases ht : env.thumbnailOk <;>
              simp [processVideo, generateHLS, hp, hmk, hempty, hmw, ht,
                markFailed]
          · right
            simp [processVideo, generateHLS, hp, hmk, hempty, hmw, markFailed]
      · right
        simp [processVideo, generateHLS, hp, hmk, markFailed]
  · intro env video e hp
    simp [processVideo, markFailed, hp]
  · intro env video md e hp hmk
    simp [processVideo, generateHLS, markFailed, hp, hmk]
  · intro env video md hp hmk hfil
    simp [processVideo, generateHLS, markFailed, hp, hmk, hfil]
  · intro env video md e hp hmk hfil hmw
    have hfil' : ((determineQualityLevels md.width md.height).filter
        env.renditionOk).isEmpty = false := by
      simpa [List.isEmpty_iff] using hfil
    simp [processVideo, generateHLS, markFailed, hp, hmk, hfil', hmw]
  · intro env video md hp hmk hfil hmw ht
    have hfil' : ((determineQualityLevels md.width md.height).filter
        env.renditionOk).isEmpty = false := by
      simpa [List.isEmpty_iff] using hfil
    simp [processVideo, generateHLS, markFailed, hp, hmk, hfil', hmw, ht]

/-- A concrete Video record used by witnesses. -/
def sampleVideo : Video :=
  { videoId := "vid1", userId := "u1", title := "t", description := "",
    visibility := Visibility.unlisted, passphraseHash := none,
    storagePath := "videos/u1/vid1/original.mp4",
    hlsPath := "videos/u1/vid1/hls", masterPlaylistPath := none,
    thumbnailPath := none, duration := 0, resolution := none,
    status := VideoStatus.uploading, processingError := none, views := 0 }

/-- Concrete probe metadata used by witnesses (a 1080p source). -/
def sampleMetadata : VideoMetadata :=
  { duration := 30, width := 1920, height := 1080, codec := "h264",
    fps := 30, bitrate := 5000000, format := "mp4" }

/-- C6 witness: a failing probe marks the video failed with that error
message, and a run where only the thumbnail fails still ends ready. -/
theorem pipeline_terminal_witness :
    (processVideo ⟨.error "probe boom", none, fun _ => true, none, true⟩
        sampleVideo).status = VideoStatus.failed
    ∧ (processVideo ⟨.error "probe boom", none, fun _ => true, none, true⟩
        sampleVideo).processingError = some "probe boom"
    ∧ (processVideo ⟨.ok sampleMetadata, none, fun _ => true, none, false⟩
        sampleVideo).status = VideoStatus.ready :=
  ⟨(pipeline_terminal.2.1 ⟨.error "probe boom", none, fun _ => true, none,
      true⟩ sampleVideo "probe boom" rfl).1,
   (pipeline_terminal.2.1 ⟨.error "probe boom", none, fun _ => true, none,
      true⟩ sampleVideo "probe boom" rfl).2,
   (pipeline_terminal.2.2.2.2.2 ⟨.ok sampleMetadata, none, fun _ => true,
      none, false⟩ sampleVideo sampleMetadata rfl rfl (by decide) rfl
      rfl).1⟩

/-- Accumulating pushes into an array, as both rewrite loops in
`streamController.ts` do, builds the map of the per-line rule. -/
theorem foldl_ite_push {α β : Type} (c : α → Bool) (g h : α → β) :
    ∀ (l : List α) (acc : List β),
      l.foldl (fun acc x => if c x then acc ++ [g x] else acc ++ [h x]) acc
        = acc ++ l.map fun x => if c x then g x else h x
  | [], acc => by simp
  | x :: xs, acc => by
    by_cases hc : c x <;>
      simp [List.foldl_cons, hc, foldl_ite_push c g h xs, List.append_assoc]

/-- `rewritePlaylistUrls` from `streamController.ts`: split the master
playlist on newlines; push each line that ends in `.m3u8` with
`?token=<fresh token for (videoId, line, userId)>` appended, push every
other line unchanged; join with newlines.  `enc` is `encodeToken`
(base64url of the signed payload). -/
def rewritePlaylistUrls (mac : SignedUrlPayload → String)
    (enc : TokenData → String) (cfg : Config) (content videoId : String)
    (userId : Option String) (now : Int) : String :=
  let lines := content.splitOn "\n"
  let rewritten := lines.foldl
    (fun acc line =>
      if line.endsWith ".m3u8" then
        acc ++ [line ++ "?token=" ++
          enc (generateSignedUrl mac cfg videoId line userId none now)]
      else
        acc ++ [line])
    []
  String.intercalate "\n" rewritten

/-- `rewriteSegmentUrls` from `streamController.ts`: same loop over a
variant playlist, appending a fresh token to each line that ends in
`.ts`. -/
def rewriteSegmentUrls (mac : SignedUrlPayload → String)
    (enc : TokenData → String) (cfg : Config) (content videoId : String)
    (userId : Option String) (now : Int) : String :=
  let lines := content.splitOn "\n"
  let rewritten := lines.foldl
    (fun acc line =>
      if line.endsWith ".ts" then
        acc ++ [line ++ "?token=" ++
          enc (generateSignedUrl mac cfg videoId line userId none now)]
      else
        acc ++ [line])
    []
  String.intercalate "\n" rewritten

/-- C7 — Playlist rewriting: the master rewrite maps each line of the
playlist to itself with `?token=<token minted for (videoId, line, userId)>`
appended exactly when the line ends in `.m3u8`, leaving every other line
verbatim; the variant rewrite does the same for lines ending in `.ts`. -/
theorem playlist_rewriting (mac : SignedUrlPayload → String)
    (enc : TokenData → String) (cfg : Config) (content videoId : String)
    (userId : Option String) (now : Int) :
    rewritePlaylistUrls mac enc cfg content videoId userId now
      = String.intercalate "\n" ((content.splitOn "\n").map fun line =>
          if line.endsWith ".m3u8" then
            line ++ "?token=" ++
              enc (generateSignedUrl mac cfg videoId line userId none now)
          else line)
    ∧ rewriteSegmentUrls mac enc cfg content videoId userId now
      = String.intercalate "\n" ((content.splitOn "\n").map fun line =>
          if line.endsWith ".ts" then
            line ++ "?token=" ++
              enc (generateSignedUrl mac cfg videoId line userId none now)
          else line) := by
  constructor
  · simp only [rewritePlaylistUrls]
    rw [foldl_ite_push (fun line => line.endsWith ".m3u8")
      (fun line => line ++ "?token=" ++
        enc (generateSignedUrl mac cfg videoId line userId none now))
      (fun line => line) (content.splitOn "\n") []]
    rfl
  · simp only [rewriteSegmentUrls]
    rw [foldl_ite_push (fun line => line.endsWith ".ts")
      (fun line => line ++ "?token=" ++
        enc (generateSignedUrl mac cfg videoId line userId none now))
      (fun line => line) (content.splitOn "\n") []]
    rfl

/-- `ApiError.notFound('Video not found', 'VIDEO_NOT_FOUND')`. -/
def videoNotFoundErr : ApiErr :=
  ApiErr.notFound "Video not found" (some "VIDEO_NOT_FOUND")

/-- `ApiError.forbidden('Access denied', 'ACCESS_DENIED')`. -/
def accessDeniedErr : ApiErr :=
  ApiErr.forbidden "Access denied" (some "ACCESS_DENIED")

/-- What exists in Storage and the document store while a delete runs. -/
structure DeleteState where
  blobExists : Bool
  dirExists : Bool
  recordExists : Bool
deriving DecidableEq, Repr

/-- Outcomes of the two storage calls `deleteVideoFiles` makes. -/
structure DeleteEnv where
  deleteBlobErr : Option String
  deleteDirErr : Option String
deriving DecidableEq, Repr

/-- `VideoProcessingService.deleteVideoFiles`: delete the original blob,
then the HLS directory; an error is logged and RETHROWN (`throw error` in
the catch block). -/
def deleteVideoFiles (env : DeleteEnv) (s : DeleteState) :
    Except String Unit × DeleteState :=
  match env.deleteBlobErr with
  | some e => (.error e, s)
  | none =>
    let s1 := { s with blobExists := false }
    match env.deleteDirErr with
    | some e => (.error e, s1)
    | none => (.ok (), { s1 with dirExists := false })

/-- An error surfaced by `videoController.deleteVideo`: either an
`ApiError` it throws itself or an error thrown below it (by
`deleteVideoFiles`) that propagates through the async handler. -/
inductive DeleteErr
  | api (e : ApiErr)
  | thrown (e : String)
deriving DecidableEq, Repr

/-- `videoController.deleteVideo`: authentication, lookup, ownership, then
`await deleteVideoFiles(video)` with NO catch, then delete the record.  A
storage error therefore aborts the handler before the record delete. -/
def deleteVideo (env : DeleteEnv) (user : Option String)
    (video? : Option Video) (s : DeleteState) :
    Except DeleteErr String × DeleteState :=
  match user with
  | none =>
    (.error (.api (ApiErr.unauthorized "Authentication required" none)), s)
  | some u =>
    match video? with
    | none => (.error (.api videoNotFoundErr), s)
    | some video =>
      if video.userId ≠ u then (.error (.api accessDeniedErr), s)
      else
        match deleteVideoFiles env s with
        | (.error e, s') => (.error (.thrown e), s')
        | (.ok _, s') =>
          (.ok "Video deleted successfully", { s' with recordExists := false })

/-- The delete state before any deletion: blob, directory and record all
exist. -/
def fullState : DeleteState :=
  { blobExists := true, dirExists := true, recordExists := true }

/-- C8 counterexample — when deleting the storage blob fails, the error is
rethrown by `deleteVideoFiles` and `deleteVideo` has no catch around it, so
the handler aborts and the video record is NOT deleted, contrary to the
claim that storage errors do not block the record delete. -/
theorem delete_blocking_counterexample :
    (deleteVideo ⟨some "disk on fire", none⟩ (some "u1") (some sampleVideo)
        fullState).1
      = .error (.thrown "disk on fire")
    ∧ (deleteVideo ⟨some "disk on fire", none⟩ (some "u1") (some sampleVideo)
        fullState).2.recordExists = true := by
  exact ⟨rfl, rfl⟩

/-- C8 (amended) — Owner-initiated delete removes the `storagePath` blob and
the `hlsPath` directory and then the record, but an error during storage
deletion is logged and rethrown, aborting the request: the record is deleted
only when both storage deletions succeed; when the blob or directory
deletion fails the record survives (and a directory failure still leaves the
blob deleted). -/
theorem delete_semantics (user : String) (video : Video) (s : DeleteState) :
    (video.userId = user →
      deleteVideo ⟨none, none⟩ (some user) (some video) s
        = (.ok "Video deleted successfully",
           { s with blobExists := false, dirExists := false,
                    recordExists := false }))
    ∧ (∀ e : String, video.userId = user →
        (deleteVideo ⟨some e, none⟩ (some user) (some video) s).1
          = .error (.thrown e)
        ∧ (deleteVideo ⟨some e, none⟩ (some user) (some video) s).2 = s)
    ∧ (∀ e : String, video.userId = user →
        (deleteVideo ⟨none, some e⟩ (some user) (some video) s).1
          = .error (.thrown e)
        ∧ (deleteVideo ⟨none, some e⟩ (some user) (some video) s).2
          = { s with blobExists := false }) := by
  refine ⟨?_, ?_, ?_⟩
  · intro hown
    simp [deleteVideo, deleteVideoFiles, hown]
  · intro e hown
    constructor <;> simp [deleteVideo, deleteVideoFiles, hown]
  · intro e hown
    constructor <;> simp [deleteVideo, deleteVideoFiles, hown]

/-- C8 witness: concrete successful delete and concrete blob-failure
delete. -/
theorem delete_semantics_witness :
    deleteVideo ⟨none, none⟩ (some "u1") (some sampleVideo) fullState
      = (.ok "Video deleted successfully",
         { fullState with blobExists := false, dirExists := false,
                          recordExists := false })
    ∧ (deleteVideo ⟨some "boom", none⟩ (some "u1") (some sampleVideo)
        fullState).1 = .error (.thrown "boom") :=
  ⟨(delete_semantics "u1" sampleVideo fullState).1 (by decide),
   ((delete_semantics "u1" sampleVideo fullState).2.1 "boom" (by decide)).1⟩

/-- `ApiError.badRequest('Passphrase must be at least 4 characters',
'WEAK_PASSPHRASE')`. -/
def weakPassphraseErr : ApiErr :=
  ApiErr.badRequest "Passphrase must be at least 4 characters"
    (some "WEAK_PASSPHRASE")

/-- `SecurityService.hashPassphrase`: reject a falsy or shorter-than-4
passphrase with `WEAK_PASSPHRASE`, otherwise return the bcrypt hash
(`bcryptHash` abstracts `bcrypt.hash` with the configured salt). -/
def hashPassphrase (bcryptHash : String → String) (passphrase : String) :
    Except ApiErr String :=
  if passphrase = "" ∨ passphrase.length < 4 then
    .error weakPassphraseErr
  else
    .ok (bcryptHash passphrase)

/-- JavaScript `String.prototype.trim()` on the common whitespace
characters, modelled on the character list. -/
def jsTrim (s : String) : String :=
  let ws : Char → Bool := fun c => c = ' ' ∨ c = '\t' ∨ c = '\n' ∨ c = '\r'
  (((s.data.dropWhile ws).reverse.dropWhile ws).reverse).asString

/-- The passphrase step of `videoController.uploadVideo`:
`if (passphrase && passphrase.trim().length > 0)` hash the TRIMMED
passphrase, otherwise leave `passphraseHash` undefined.  Returns the
`passphraseHash` the video record is created with, or the error that fails
the upload. -/
def uploadPassphraseStep (bcryptHash : String → String)
    (passphrase : Option String) : Except ApiErr (Option String) :=
  match passphrase with
  | none => .ok none
  | some p =>
    if 0 < (jsTrim p).length then
      match hashPassphrase bcryptHash (jsTrim p) with
      | .error e => .error e
      | .ok h => .ok (some h)
    else
      .ok none

/-- C10 counterexample — `" ab "` has length 4, yet the upload fails with
`WEAK_PASSPHRASE`: `uploadVideo` trims the passphrase before hashing, and
the trimmed `"ab"` is shorter than 4 characters; so it is not true that
every supplied passphrase of length ≥ 4 is hashed and lets the upload
proceed. -/
theorem passphrase_floor_counterexample :
    4 ≤ (" ab " : String).length
    ∧ uploadPassphraseStep (fun s => s) (some " ab ")
        = .error weakPassphraseErr := by
  exact ⟨by decide, rfl⟩

/-- C10 (amended) — `hashPassphrase` rejects every passphrase shorter than
4 characters with a `WEAK_PASSPHRASE` bad request and hashes every longer
one; the upload hashes the TRIMMED supplied passphrase: a whitespace-only
passphrase is silently ignored (upload proceeds unprotected), a trimmed
length of 1–3 fails the upload with `WEAK_PASSPHRASE`, and a trimmed length
of at least 4 proceeds with `passphraseHash` set to the bcrypt hash of the
trimmed passphrase. -/
theorem passphrase_floor (bcryptHash : String → String) :
    (∀ p : String, p.length < 4 →
      hashPassphrase bcryptHash p = .error weakPassphraseErr)
    ∧ (∀ p : String, 4 ≤ p.length →
        hashPassphrase bcryptHash p = .ok (bcryptHash p))
    ∧ uploadPassphraseStep bcryptHash none = .ok none
    ∧ (∀ p : String, (jsTrim p).length = 0 →
        uploadPassphraseStep bcryptHash (some p) = .ok none)
    ∧ (∀ p : String, 0 < (jsTrim p).length → (jsTrim p).length < 4 →
        uploadPassphraseStep bcryptHash (some p) = .error weakPassphraseErr)
    ∧ (∀ p : String, 4 ≤ (jsTrim p).length →
        uploadPassphraseStep bcryptHash (some p)
          = .ok (some (bcryptHash (jsTrim p)))) := by
  refine ⟨?_, ?_, rfl, ?_, ?_, ?_⟩
  · intro p hlen
    simp [hashPassphrase, hlen]
  · intro p hlen
    have h0 : p ≠ "" := by
      intro h
      rw [h] at hlen
      simp [String.length] at hlen
    have h4 : ¬p.length < 4 := by omega
    simp [hashPassphrase, h0, h4]
  · intro p h0
    have : ¬0 < (jsTrim p).length := by omega
    simp [uploadPassphraseStep, this]
  · intro p h0 h4
    simp [uploadPassphraseStep, h0, hashPassphrase, h4]
  · intro p h4
    have h0 : 0 < (jsTrim p).length := by omega
    have hne : jsTrim p ≠ "" := by
      intro h
      rw [h] at h0
      simp [String.length] at h0
    have hlt : ¬(jsTrim p).length < 4 := by omega
    simp [uploadPassphraseStep, h0, hashPassphrase, hne, hlt]

/-- C10 witness at concrete inputs. -/
theorem passphrase_floor_witness :
    hashPassphrase (fun s => s) "abc" = .error weakPassphraseErr
    ∧ hashPassphrase (fun s => s) "hunter2" = .ok "hunter2"
    ∧ uploadPassphraseStep (fun s => s) (some "   ") = .ok none
    ∧ uploadPassphraseStep (fun s => s) (some " hunter2 ")
        = .ok (some "hunter2") :=
  ⟨(passphrase_floor (fun s => s)).1 "abc" (by decide),
   (passphrase_floor (fun s => s)).2.1 "hunter2" (by decide),
   (passphrase_floor (fun s => s)).2.2.2.1 "   " (by decide),
   by
     have := (passphrase_floor (fun s => s)).2.2.2.2.2 " hunter2 "
       (by decide)
     simpa using this⟩
